import Mathlib

/-!
Shallow embedding of the SHARE disambiguation core:
`share/models/identifiers.py` (identifier normalization and persistence) and
`share/disambiguation/strategies/database.py` (DatabaseStrategy matching passes,
ComparableAgentWorkRelation, QueryBuilder / ConstrainedTypeQueryBuilder).

External collaborators (the IRILink resolver, the furl URI parser, the HumanName
parser, the database) are taken as parameters; their outputs are what the code
branches on. The Match Set held by the MatchingStrategy base class is modelled
from the spec, since `strategies/base.py` is outside this excerpt.
-/

/-- Result of resolving a raw URI with IRILink().execute: the canonical IRI,
the authority/host, and the scheme (share/normalize/links.py, an external
collaborator of identifiers.py; normalization code branches only on these
three fields, and a parse failure is modelled as `none`). -/
structure IRIResult where
  IRI : String
  authority : String
  scheme : String
  deriving DecidableEq, Repr

/-- A graph node as seen by identifier normalization: an id and the mutable
attribute mapping `node.attrs`. -/
structure IdNode where
  id : Nat
  attrs : List (String × String)
  deriving DecidableEq, Repr

/-- The mutable graph of nodes under resolution. -/
abbrev Graph := List IdNode

/-- graph.remove(node): the node is deleted from its graph. -/
def Graph.removeNode (g : Graph) (n : IdNode) : Graph :=
  g.filter (fun m => m.id != n.id)

/-- In-place mutation of a node's attrs, seen functionally: every occurrence
of the node (by id) now carries the new attributes. -/
def Graph.updateNode (g : Graph) (n : IdNode) : Graph :=
  g.map (fun m => if m.id == n.id then n else m)

/-- The attribute mapping both normalize methods assign on acceptance:
exactly the keys uri, host and scheme. -/
def normalizedAttrs (ret : IRIResult) : List (String × String) :=
  [("uri", ret.IRI), ("host", ret.authority), ("scheme", ret.scheme)]

/-- WorkIdentifier.normalize (identifiers.py lines 44-65): resolve
node.attrs['uri']; on ValueError remove the node; if the authority is in
the set of issn and orcid.org, or the scheme is in the set of mailto,
remove the node; otherwise overwrite node.attrs with exactly uri, host,
scheme. `none` marks the unmodelled KeyError when the uri attribute is
absent. -/
def workIdentifierNormalize (resolve : String → Option IRIResult)
    (node : IdNode) (g : Graph) : Option Graph :=
  match node.attrs.lookup "uri" with
  | none => none
  | some uri =>
    match resolve uri with
    | none => some (g.removeNode node)
    | some ret =>
      if ret.authority == "issn" || ret.authority == "orcid.org" || ret.scheme == "mailto" then
        some (g.removeNode node)
      else
        some (g.updateNode { node with attrs := normalizedAttrs ret })

/-- AgentIdentifier.normalize (identifiers.py lines 86-102): identical to the
work version except that there is no authority/scheme policy check. -/
def agentIdentifierNormalize (resolve : String → Option IRIResult)
    (node : IdNode) (g : Graph) : Option Graph :=
  match node.attrs.lookup "uri" with
  | none => none
  | some uri =>
    match resolve uri with
    | none => some (g.removeNode node)
    | some ret =>
      some (g.updateNode { node with attrs := normalizedAttrs ret })

/-- The host/scheme pair furl derives from a URI (furl is an external library;
save() reads only .host and .scheme from it). -/
structure FurlParts where
  host : String
  scheme : String
  deriving DecidableEq, Repr

/-- The persisted columns of a WorkIdentifier / AgentIdentifier row that
save() touches. -/
structure IdentifierRow where
  uri : String
  host : String
  scheme : String
  deriving DecidableEq, Repr

/-- WorkIdentifier.save (identifiers.py lines 67-71): recompute host and
scheme from self.uri via furl, then persist. -/
def workIdentifierSave (furl : String → FurlParts) (r : IdentifierRow) : IdentifierRow :=
  { r with host := (furl r.uri).host, scheme := (furl r.uri).scheme }

/-- AgentIdentifier.save (identifiers.py lines 104-108): same recomputation. -/
def agentIdentifierSave (furl : String → FurlParts) (r : IdentifierRow) : IdentifierRow :=
  { r with host := (furl r.uri).host, scheme := (furl r.uri).scheme }

/-- Modelled from the spec: the Match Set held by the MatchingStrategy base
class (share/disambiguation/strategies/base.py is not in this excerpt): a
node-to-candidate-set mapping supporting union add (add_match), lookup
(get_matches) and an emptiness test. Candidates are represented by their
persisted ids; pairs is the set of (node id, candidate id) associations. -/
structure MatchSet where
  pairs : List (Nat × Nat)
  deriving DecidableEq, Repr

/-- get_matches(node): the candidates currently associated with a node. -/
def MatchSet.getMatches (ms : MatchSet) (n : Nat) : List Nat :=
  (ms.pairs.filter (fun p => p.1 == n)).map (fun p => p.2)

/-- add_match(node, match): union-add one association. -/
def MatchSet.addMatch (ms : MatchSet) (n c : Nat) : MatchSet :=
  if (n, c) ∈ ms.pairs then ms else ⟨ms.pairs ++ [(n, c)]⟩

/-- has_matches(node). -/
def MatchSet.hasMatches (ms : MatchSet) (n : Nat) : Bool :=
  !(ms.getMatches n).isEmpty

/-- A node as seen by match_by_many_to_one: its id and, for every relation
name, the id of the related node node[r]. -/
structure MNode where
  id : Nat
  rel : String → Nat

/-- The conflict carried by the MergeRequired exception (database.py lines
54-57): the related node whose matches conflict, and the conflicting
candidate matches themselves. -/
structure Ambiguity where
  relatedNodeId : Nat
  candidates : List Nat
  deriving DecidableEq, Repr

/-- related_matches (database.py line 47): an insertion-ordered dict from each
relation name to the current matches of the node's related node. -/
def relatedMatches (ms : MatchSet) (relationNames : List String) (node : MNode) :
    List (String × List Nat) :=
  relationNames.map (fun r => (r, ms.getMatches (node.rel r)))

/-- The per-node body of match_by_many_to_one's first loop (database.py lines
46-57): if every named relation has exactly one match, yield the lookup key
(the single match ids, in relation order); otherwise raise MergeRequired at
the first relation with more than one match; otherwise skip the node. -/
def manyToOneStep (ms : MatchSet) (relationNames : List String) (node : MNode) :
    Except Ambiguity (Option (List Nat)) :=
  let rm := relatedMatches ms relationNames node
  if rm.all (fun p => p.2.length == 1) then
    Except.ok (some (rm.map (fun p => p.2.headD 0)))
  else
    match rm.find? (fun p => 1 < p.2.length) with
    | some p => Except.error ⟨node.rel p.1, p.2⟩
    | none => Except.ok none

/-- The whole first loop of match_by_many_to_one: node_values in insertion
order, or the first MergeRequired raised. -/
def buildNodeValues (ms : MatchSet) (relationNames : List String) :
    List MNode → Except Ambiguity (List (Nat × List Nat))
  | [] => Except.ok []
  | n :: rest =>
    match manyToOneStep ms relationNames n with
    | Except.error a => Except.error a
    | Except.ok none => buildNodeValues ms relationNames rest
    | Except.ok (some vals) =>
      match buildNodeValues ms relationNames rest with
      | Except.error a => Except.error a
      | Except.ok nv => Except.ok ((n.id, vals) :: nv)

/-- A persisted row as seen by the batched lookup: id, concrete type tag and
the values of the joined columns (foreign-key ids for the many-to-one pass). -/
structure DBRow where
  id : Nat
  typeTag : String
  cols : List Nat
  deriving DecidableEq, Repr

/-- Relational meaning of the one query _match_query builds and runs: the
VALUES rows (node_id, v1, ..., vk) inner-joined against the target table on
equality of every named column, optionally constrained to allowed type tags
(database execution itself is external to this excerpt). -/
def queryJoin (table : List DBRow) (allowed : Option (List String))
    (params : List (Nat × List Nat)) : List (Nat × DBRow) :=
  params.flatMap (fun p =>
    (table.filter (fun row => row.cols == p.2 &&
      (match allowed with
       | none => true
       | some ts => ts.contains row.typeTag))).map (fun row => (p.1, row)))

/-- _match_query (database.py lines 146-159): return unchanged on empty input,
otherwise add a match for every row the single batched query returns. -/
def matchQueryStep (ms : MatchSet) (table : List DBRow) (allowed : Option (List String))
    (nodeValues : List (Nat × List Nat)) : MatchSet :=
  if nodeValues.isEmpty then ms
  else (queryJoin table allowed nodeValues).foldl (fun acc r => acc.addMatch r.1 r.2.id) ms

/-- match_by_many_to_one (database.py lines 44-65): build node_values (raising
MergeRequired on ambiguity, with the match set still in its entry state), then
run the one batched lookup and record its matches. -/
def matchByManyToOne (ms : MatchSet) (table : List DBRow) (allowed : Option (List String))
    (nodes : List MNode) (relationNames : List String) :
    Except (Ambiguity × MatchSet) MatchSet :=
  match buildNodeValues ms relationNames nodes with
  | Except.error a => Except.error (a, ms)
  | Except.ok nv => Except.ok (matchQueryStep ms table allowed nv)

/-- A parsed human name as produced by share.util.nameparser's HumanName (an
external collaborator): the comparator reads only first, last and full_name. -/
structure ParsedName where
  first : String
  last : String
  full_name : String
  deriving DecidableEq, Repr

/-- The helper i inside _get_name_key: the first character of a name part, or
None when the part is empty. -/
def nameInitial (s : String) : Option Char :=
  s.data.head?

/-- ComparableAgentWorkRelation._get_name_key (database.py lines 190-199):
full-name equality, (first, last) equality, (first-initial, last) equality. -/
def getNameKey (parsed_name parsed_target : ParsedName) : Bool × Bool × Bool :=
  (parsed_name.full_name == parsed_target.full_name,
   (parsed_name.first, parsed_name.last) == (parsed_target.first, parsed_target.last),
   (nameInitial parsed_name.first, parsed_name.last)
     == (nameInitial parsed_target.first, parsed_target.last))

/-- A persisted AbstractAgentWorkRelation row with its agent, as the fuzzy
pass reads it: ids, order_cited, concrete model name, and the two raw name
strings. -/
structure RelationRecord where
  relId : Nat
  agentId : Nat
  order_cited : Option Int
  model_name : String
  cited_as : String
  agent_name : String
  deriving DecidableEq, Repr

/-- An incoming agent-work-relation node: its id, its agent sub-node's id,
order_cited, declared type, and the two raw name strings. -/
structure RelNode where
  id : Nat
  agentNodeId : Nat
  order_cited : Option Int
  type : String
  cited_as : String
  agent_name : String
  deriving DecidableEq, Repr

/-- The ParsedRelationNames namedtuple (database.py line 162). -/
structure ParsedRelationNames (α : Type) where
  obj : α
  cited_as : ParsedName
  agent_name : ParsedName
  deriving DecidableEq, Repr

/-- ComparableAgentWorkRelation (database.py lines 165-199): the cited-as name
key, and the 8-component sort key (cited-as vector, agent-name vector,
order_cited equality, concrete-subtype equality). -/
structure ComparableAgentWorkRelation where
  relation : RelationRecord
  node : RelNode
  name_key : Bool × Bool × Bool
  sort_key : List Bool
  deriving DecidableEq, Repr

/-- ComparableAgentWorkRelation.__init__. -/
def mkComparable (node_names : ParsedRelationNames RelNode)
    (instance_names : ParsedRelationNames RelationRecord) : ComparableAgentWorkRelation :=
  let nk := getNameKey instance_names.cited_as node_names.cited_as
  let ak := getNameKey instance_names.agent_name node_names.agent_name
  { relation := instance_names.obj
    node := node_names.obj
    name_key := nk
    sort_key := [nk.1, nk.2.1, nk.2.2, ak.1, ak.2.1, ak.2.2,
      instance_names.obj.order_cited == node_names.obj.order_cited,
      instance_names.obj.model_name == node_names.obj.type] }

/-- ComparableAgentWorkRelation.valid_match: some cited-as component is true. -/
def ComparableAgentWorkRelation.valid_match (c : ComparableAgentWorkRelation) : Bool :=
  c.name_key.1 || c.name_key.2.1 || c.name_key.2.2

/-- Strict lexicographic less-than on python bool tuples (False < True). -/
def boolKeyLt : List Bool → List Bool → Bool
  | [], [] => false
  | [], _ :: _ => true
  | _ :: _, [] => false
  | x :: xs, y :: ys => (!x && y) || (x == y && boolKeyLt xs ys)

/-- Insert into a descending-sorted list, after every element not strictly
below the new one (preserving first-come order among equal keys). -/
def insertDescending (x : ComparableAgentWorkRelation) :
    List ComparableAgentWorkRelation → List ComparableAgentWorkRelation
  | [] => [x]
  | y :: ys =>
    if boolKeyLt y.sort_key x.sort_key then x :: y :: ys
    else y :: insertDescending x ys

/-- sorted(..., key=attrgetter('sort_key'), reverse=True): python's stable
descending sort. -/
def sortedDescending (l : List ComparableAgentWorkRelation) :
    List ComparableAgentWorkRelation :=
  l.foldl (fun acc x => insertDescending x acc) []

/-- top_matches (database.py lines 133-140): comparables for every existing
relation, restricted to valid matches, sorted descending by sort key. -/
def topMatches (node_names : ParsedRelationNames RelNode)
    (relation_names : List (ParsedRelationNames RelationRecord)) :
    List ComparableAgentWorkRelation :=
  sortedDescending
    ((relation_names.map (fun r => mkComparable node_names r)).filter
      (fun c => c.valid_match))

/-- DatabaseStrategy.MAX_NAME_LENGTH. -/
def MAX_NAME_LENGTH : Nat := 200

/-- node_names (database.py line 131). -/
def parsedNodeNames (parse : String → ParsedName) (node : RelNode) :
    ParsedRelationNames RelNode :=
  ⟨node, parse node.cited_as, parse node.agent_name⟩

/-- relation_names (database.py lines 121-125): existing relations within the
name-length bound, with both names parsed. -/
def buildRelationNames (parse : String → ParsedName) (agent_relations : List RelationRecord) :
    List (ParsedRelationNames RelationRecord) :=
  (agent_relations.filter (fun r =>
      r.cited_as.length ≤ MAX_NAME_LENGTH && r.agent_name.length ≤ MAX_NAME_LENGTH)).map
    (fun r => ⟨r, parse r.cited_as, parse r.agent_name⟩)

/-- The per-relation-node body of match_agent_work_relations (database.py
lines 127-144): skip over-long names, rank candidates, and on a valid best
match record agent-to-agent and relation-to-relation matches. -/
def processRelationNode (parse : String → ParsedName) (ms : MatchSet)
    (relation_names : List (ParsedRelationNames RelationRecord)) (node : RelNode) : MatchSet :=
  if MAX_NAME_LENGTH < node.cited_as.length ∨ MAX_NAME_LENGTH < node.agent_name.length then ms
  else
    match topMatches (parsedNodeNames parse node) relation_names with
    | [] => ms
    | m :: _ =>
      (ms.addMatch node.agentNodeId m.relation.agentId).addMatch node.id m.relation.relId

/-- A persisted Subject row as match_subjects reads it: central_synonym
foreign key (none marks a central-taxonomy entry), the owning taxonomy's
source, uri and name (models.Subject is outside this excerpt; the fields are
those the pass filters and looks up on). -/
structure Subject where
  id : Nat
  central_synonym : Option Nat
  taxonomy_source : Option String
  uri : Option String
  name : Option String
  deriving DecidableEq, Repr

/-- An incoming subject node: central_synonym reference and the two lookup
values. -/
structure SubjNode where
  id : Nat
  central_synonym : Option Nat
  uri : Option String
  name : Option String
  deriving DecidableEq, Repr

/-- The two lookup fields, in the order the code tries them. -/
inductive SubjField where
  | uri
  | name
  deriving DecidableEq, Repr

/-- node[field_name]. -/
def SubjNode.field (n : SubjNode) : SubjField → Option String
  | SubjField.uri => n.uri
  | SubjField.name => n.name

/-- The corresponding column of a Subject row. -/
def Subject.field (s : Subject) : SubjField → Option String
  | SubjField.uri => s.uri
  | SubjField.name => s.name

/-- Python truthiness of an optional string: None and the empty string are
falsy. -/
def truthy : Option String → Bool
  | none => false
  | some s => !s.isEmpty

/-- Django QuerySet.get semantics: the unique matching row, DoesNotExist, or
MultipleObjectsReturned. -/
inductive GetResult where
  | found (s : Subject)
  | doesNotExist
  | multipleReturned
  deriving DecidableEq, Repr

/-- qs.get(field=value) over the in-scope rows. -/
def qsGet (rows : List Subject) (f : Subject → Bool) : GetResult :=
  match rows.filter f with
  | [] => GetResult.doesNotExist
  | [s] => GetResult.found s
  | _ :: _ :: _ => GetResult.multipleReturned

/-- Outcome of match_subjects for one node: a recorded match, a skip (custom
taxonomy without a configured source), no match, or an uncaught
MultipleObjectsReturned (only DoesNotExist is caught). -/
inductive SubjectOutcome where
  | matched (s : Subject)
  | skipped
  | noMatch
  | errorMultiple
  deriving DecidableEq, Repr

/-- The uri-then-name loop of match_subjects (database.py lines 91-99): skip
falsy values, continue past DoesNotExist, record the first hit and stop. -/
def matchFieldsLoop (qs : List Subject) (node : SubjNode) :
    List SubjField → SubjectOutcome
  | [] => SubjectOutcome.noMatch
  | f :: rest =>
    if truthy (node.field f) then
      match qsGet qs (fun s => s.field f == node.field f) with
      | GetResult.found s => SubjectOutcome.matched s
      | GetResult.doesNotExist => matchFieldsLoop qs node rest
      | GetResult.multipleReturned => SubjectOutcome.errorMultiple
    else matchFieldsLoop qs node rest

/-- match_subjects for one node (database.py lines 79-99): choose the scope
(central-taxonomy rows, the configured source's taxonomy rows, or skip the
node), then try an exact uri match and fall back to an exact name match. -/
def matchSubjectsNode (source : Option String) (rows : List Subject)
    (node : SubjNode) : SubjectOutcome :=
  match node.central_synonym, source with
  | none, _ =>
    matchFieldsLoop (rows.filter (fun s => s.central_synonym.isNone)) node
      [SubjField.uri, SubjField.name]
  | some _, some src =>
    matchFieldsLoop (rows.filter (fun s => s.taxonomy_source == some src)) node
      [SubjField.uri, SubjField.name]
  | some _, none => SubjectOutcome.skipped

/-- QueryBuilder.QUERY_TEMPLATE (database.py lines 203-210) with its four
holes filled in. -/
def queryTemplate (table_name column_names join_conditions value_placeholders : String) :
    String :=
  "\n        WITH nodes(node_id, " ++ column_names ++ ") AS (\n            VALUES "
    ++ value_placeholders ++ "\n        )\n        SELECT nodes.node_id, " ++ table_name
    ++ ".*\n        FROM nodes\n        INNER JOIN " ++ table_name ++ " ON ("
    ++ join_conditions ++ ")\n    "

/-- The configuration a QueryBuilder holds (get_values is a parameter of the
build functions). -/
structure QueryBuilderCfg where
  table_name : String
  column_names : List String
  deriving DecidableEq, Repr

/-- QueryBuilder.join_conditions: one equality per matched column. -/
def qbJoinConditions (qb : QueryBuilderCfg) : List String :=
  qb.column_names.map (fun c => "nodes." ++ c ++ " = " ++ qb.table_name ++ "." ++ c)

/-- A bound query parameter: a VALUES row (node id and its lookup values) or
the tuple of allowed type tags. -/
inductive SQLParam (V : Type) where
  | row (node_id : Nat) (values : List V)
  | tags (ts : List String)
  deriving DecidableEq, Repr

/-- QueryBuilder.params: one row per node. -/
def qbParams {N V : Type} (idOf : N → Nat) (get_values : N → List V) (nodes : List N) :
    List (SQLParam V) :=
  nodes.map (fun n => SQLParam.row (idOf n) (get_values n))

/-- QueryBuilder.build: one query for the whole node list, one value-row
placeholder per node. -/
def qbBuild {N V : Type} (qb : QueryBuilderCfg) (idOf : N → Nat) (get_values : N → List V)
    (nodes : List N) : String × List (SQLParam V) :=
  (queryTemplate qb.table_name (String.intercalate ", " qb.column_names)
    (String.intercalate " AND " (qbJoinConditions qb))
    (String.intercalate ", " (nodes.map (fun _ => "%s"))),
   qbParams idOf get_values nodes)

/-- ConstrainedTypeQueryBuilder.TYPE_COLUMN. -/
def TYPE_COLUMN : String := "type"

/-- The model meta the constrained builder reads for each allowed subtype. -/
structure ModelMeta where
  app_label : String
  model_name : String
  deriving DecidableEq, Repr

/-- ConstrainedTypeQueryBuilder.join_conditions: the inherited conditions
plus one IN predicate on the type column. -/
def ctqbJoinConditions (qb : QueryBuilderCfg) : List String :=
  qbJoinConditions qb ++ [qb.table_name ++ "." ++ TYPE_COLUMN ++ " IN %s"]

/-- ConstrainedTypeQueryBuilder.params: the inherited params plus the tuple
of fully-qualified allowed subtype tags. -/
def ctqbParams {N V : Type} (idOf : N → Nat) (get_values : N → List V)
    (allowed_models : List ModelMeta) (nodes : List N) : List (SQLParam V) :=
  qbParams idOf get_values nodes
    ++ [SQLParam.tags (allowed_models.map (fun m => m.app_label ++ "." ++ m.model_name))]

/-- ConstrainedTypeQueryBuilder.build: the inherited build body with the
overridden join_conditions and params. -/
def ctqbBuild {N V : Type} (qb : QueryBuilderCfg) (idOf : N → Nat) (get_values : N → List V)
    (allowed_models : List ModelMeta) (nodes : List N) : String × List (SQLParam V) :=
  (queryTemplate qb.table_name (String.intercalate ", " qb.column_names)
    (String.intercalate " AND " (ctqbJoinConditions qb))
    (String.intercalate ", " (nodes.map (fun _ => "%s"))),
   ctqbParams idOf get_values allowed_models nodes)

/-- Updating a graph with a node it already holds unchanged (and whose id is
not shared with a different node) is the identity. -/
theorem Graph.updateNode_eq_self (g : Graph) (n : IdNode) :
    (∀ m ∈ g, m.id = n.id → m = n) → Graph.updateNode g n = g := by
  induction g with
  | nil => intro _; rfl
  | cons m gs ih =>
    intro h
    have hrest : ∀ x ∈ gs, x.id = n.id → x = n :=
      fun x hx => h x (List.mem_cons_of_mem m hx)
    by_cases hb : m.id = n.id
    · have hm : m = n := h m (List.mem_cons_self m gs) hb
      simp [Graph.updateNode, hb, hm] at ih ⊢
      exact ih hrest
    · simp only [Graph.updateNode, List.map_cons]
      rw [if_neg (by simpa using hb)]
      have := ih hrest
      simp only [Graph.updateNode] at this
      rw [this]

/-- Every node surviving removeToNode has a different id. -/
theorem Graph.removeNode_id (g : Graph) (n : IdNode) :
    ∀ m ∈ Graph.removeNode g n, m.id ≠ n.id := by
  intro m hm
  have := List.of_mem_filter hm
  simpa using this

/-- C6 (confirmed): after save() of a WorkIdentifier or AgentIdentifier, the
stored host and scheme always equal the host and scheme derived (via furl)
from the stored uri, whatever values the caller had placed in those fields. -/
theorem save_recomputes_host_scheme (furl : String → FurlParts) (r : IdentifierRow) :
    ((workIdentifierSave furl r).host = (furl (workIdentifierSave furl r).uri).host
      ∧ (workIdentifierSave furl r).scheme = (furl (workIdentifierSave furl r).uri).scheme)
    ∧ ((agentIdentifierSave furl r).host = (furl (agentIdentifierSave furl r).uri).host
      ∧ (agentIdentifierSave furl r).scheme = (furl (agentIdentifierSave furl r).uri).scheme) :=
  ⟨⟨rfl, rfl⟩, ⟨rfl, rfl⟩⟩

/-- C3 (confirmed): when the resolved authority is issn or orcid.org, or the
resolved scheme is mailto, WorkIdentifier.normalize removes the node from its
graph regardless of its other attributes, while AgentIdentifier.normalize
accepts the very same node and keeps it in the graph. -/
theorem work_identifier_domain_policy (resolve : String → Option IRIResult)
    (node : IdNode) (g : Graph) (u : String) (ret : IRIResult)
    (hu : node.attrs.lookup "uri" = some u)
    (hres : resolve u = some ret)
    (hbad : ret.authority = "issn" ∨ ret.authority = "orcid.org" ∨ ret.scheme = "mailto")
    (hmem : node ∈ g) :
    (workIdentifierNormalize resolve node g = some (Graph.removeNode g node)
      ∧ ∀ m ∈ Graph.removeNode g node, m.id ≠ node.id)
    ∧ (agentIdentifierNormalize resolve node g
          = some (Graph.updateNode g { node with attrs := normalizedAttrs ret })
        ∧ ({ node with attrs := normalizedAttrs ret } : IdNode) ∈
            Graph.updateNode g { node with attrs := normalizedAttrs ret }) := by
  refine ⟨⟨?_, Graph.removeNode_id g node⟩, ⟨?_, ?_⟩⟩
  · have hcond : (ret.authority == "issn" || ret.authority == "orcid.org"
        || ret.scheme == "mailto") = true := by
      rcases hbad with h | h | h <;> simp [h]
    simp [workIdentifierNormalize, hu, hres, hcond]
  · simp [agentIdentifierNormalize, hu, hres]
  · have hmm := List.mem_map_of_mem
      (fun m => if m.id == ({ node with attrs := normalizedAttrs ret } : IdNode).id
        then ({ node with attrs := normalizedAttrs ret } : IdNode) else m) hmem
    simpa [Graph.updateNode] using hmm

/-- C3 witness: a concrete orcid.org work identifier is removed while the same
node survives agent normalization. -/
theorem work_identifier_domain_policy_witness :
    (workIdentifierNormalize (fun _ => some ⟨"http://orcid.org/0", "orcid.org", "http"⟩)
        ⟨1, [("uri", "u0"), ("junk", "j")]⟩ [⟨1, [("uri", "u0"), ("junk", "j")]⟩]
      = some (Graph.removeNode [⟨1, [("uri", "u0"), ("junk", "j")]⟩] ⟨1, [("uri", "u0"), ("junk", "j")]⟩)
      ∧ ∀ m ∈ Graph.removeNode [(⟨1, [("uri", "u0"), ("junk", "j")]⟩ : IdNode)]
          ⟨1, [("uri", "u0"), ("junk", "j")]⟩, m.id ≠ 1)
    ∧ (agentIdentifierNormalize (fun _ => some ⟨"http://orcid.org/0", "orcid.org", "http"⟩)
          ⟨1, [("uri", "u0"), ("junk", "j")]⟩ [⟨1, [("uri", "u0"), ("junk", "j")]⟩]
        = some (Graph.updateNode [⟨1, [("uri", "u0"), ("junk", "j")]⟩]
            ⟨1, normalizedAttrs ⟨"http://orcid.org/0", "orcid.org", "http"⟩⟩)
        ∧ (⟨1, normalizedAttrs ⟨"http://orcid.org/0", "orcid.org", "http"⟩⟩ : IdNode) ∈
            Graph.updateNode [⟨1, [("uri", "u0"), ("junk", "j")]⟩]
              ⟨1, normalizedAttrs ⟨"http://orcid.org/0", "orcid.org", "http"⟩⟩) :=
  work_identifier_domain_policy (fun _ => some ⟨"http://orcid.org/0", "orcid.org", "http"⟩)
    ⟨1, [("uri", "u0"), ("junk", "j")]⟩ [⟨1, [("uri", "u0"), ("junk", "j")]⟩] "u0"
    ⟨"http://orcid.org/0", "orcid.org", "http"⟩ rfl rfl (Or.inr (Or.inl rfl))
    (List.mem_singleton.mpr rfl)

/-- C7 (confirmed): when normalization accepts a node, the node's attribute
mapping afterwards holds exactly the keys uri, host and scheme (the canonical
IRI, the derived authority, the derived scheme); all other attributes are
dropped, and the node stays in its graph. -/
theorem normalize_accepted_frame (resolve : String → Option IRIResult)
    (node : IdNode) (g : Graph) (u : String) (ret : IRIResult)
    (hu : node.attrs.lookup "uri" = some u)
    (hres : resolve u = some ret)
    (hok : ¬(ret.authority = "issn" ∨ ret.authority = "orcid.org" ∨ ret.scheme = "mailto"))
    (hmem : node ∈ g) :
    workIdentifierNormalize resolve node g
        = some (Graph.updateNode g { node with attrs := normalizedAttrs ret })
    ∧ agentIdentifierNormalize resolve node g
        = some (Graph.updateNode g { node with attrs := normalizedAttrs ret })
    ∧ ({ node with attrs := normalizedAttrs ret } : IdNode) ∈
        Graph.updateNode g { node with attrs := normalizedAttrs ret }
    ∧ (normalizedAttrs ret).lookup "uri" = some ret.IRI
    ∧ (normalizedAttrs ret).lookup "host" = some ret.authority
    ∧ (normalizedAttrs ret).lookup "scheme" = some ret.scheme
    ∧ ∀ k, k ≠ "uri" → k ≠ "host" → k ≠ "scheme" → (normalizedAttrs ret).lookup k = none := by
  have h1 : ret.authority ≠ "issn" := fun h => hok (Or.inl h)
  have h2 : ret.authority ≠ "orcid.org" := fun h => hok (Or.inr (Or.inl h))
  have h3 : ret.scheme ≠ "mailto" := fun h => hok (Or.inr (Or.inr h))
  refine ⟨?_, ?_, ?_, ?_, ?_, ?_, ?_⟩
  · simp [workIdentifierNormalize, hu, hres, h1, h2, h3]
  · simp [agentIdentifierNormalize, hu, hres]
  · have hmm := List.mem_map_of_mem
      (fun m => if m.id == ({ node with attrs := normalizedAttrs ret } : IdNode).id
        then ({ node with attrs := normalizedAttrs ret } : IdNode) else m) hmem
    simpa [Graph.updateNode] using hmm
  · simp [normalizedAttrs, List.lookup]
  · simp [normalizedAttrs, List.lookup]
  · simp [normalizedAttrs, List.lookup]
  · intro k hk1 hk2 hk3
    have e1 : (k == "uri") = false := beq_eq_false_iff_ne.mpr hk1
    have e2 : (k == "host") = false := beq_eq_false_iff_ne.mpr hk2
    have e3 : (k == "scheme") = false := beq_eq_false_iff_ne.mpr hk3
    simp [normalizedAttrs, List.lookup, e1, e2, e3]

/-- C7 witness: a concrete accepted node ends up with exactly the three
derived attributes. -/
theorem normalize_accepted_frame_witness :
    workIdentifierNormalize (fun _ => some ⟨"http://example.com/foo", "example.com", "http"⟩)
        ⟨1, [("uri", "HTTP://Example.com/Foo"), ("junk", "j")]⟩
        [⟨1, [("uri", "HTTP://Example.com/Foo"), ("junk", "j")]⟩]
      = some (Graph.updateNode [⟨1, [("uri", "HTTP://Example.com/Foo"), ("junk", "j")]⟩]
          ⟨1, normalizedAttrs ⟨"http://example.com/foo", "example.com", "http"⟩⟩)
    ∧ agentIdentifierNormalize (fun _ => some ⟨"http://example.com/foo", "example.com", "http"⟩)
        ⟨1, [("uri", "HTTP://Example.com/Foo"), ("junk", "j")]⟩
        [⟨1, [("uri", "HTTP://Example.com/Foo"), ("junk", "j")]⟩]
      = some (Graph.updateNode [⟨1, [("uri", "HTTP://Example.com/Foo"), ("junk", "j")]⟩]
          ⟨1, normalizedAttrs ⟨"http://example.com/foo", "example.com", "http"⟩⟩)
    ∧ (⟨1, normalizedAttrs ⟨"http://example.com/foo", "example.com", "http"⟩⟩ : IdNode) ∈
        Graph.updateNode [⟨1, [("uri", "HTTP://Example.com/Foo"), ("junk", "j")]⟩]
          ⟨1, normalizedAttrs ⟨"http://example.com/foo", "example.com", "http"⟩⟩
    ∧ (normalizedAttrs ⟨"http://example.com/foo", "example.com", "http"⟩).lookup "uri"
        = some "http://example.com/foo"
    ∧ (normalizedAttrs ⟨"http://example.com/foo", "example.com", "http"⟩).lookup "host"
        = some "example.com"
    ∧ (normalizedAttrs ⟨"http://example.com/foo", "example.com", "http"⟩).lookup "scheme"
        = some "http"
    ∧ ∀ k, k ≠ "uri" → k ≠ "host" → k ≠ "scheme" →
        (normalizedAttrs ⟨"http://example.com/foo", "example.com", "http"⟩).lookup k = none :=
  normalize_accepted_frame (fun _ => some ⟨"http://example.com/foo", "example.com", "http"⟩)
    ⟨1, [("uri", "HTTP://Example.com/Foo"), ("junk", "j")]⟩
    [⟨1, [("uri", "HTTP://Example.com/Foo"), ("junk", "j")]⟩] "HTTP://Example.com/Foo"
    ⟨"http://example.com/foo", "example.com", "http"⟩ rfl rfl (by simp)
    (List.mem_singleton.mpr rfl)

/-- C10 (confirmed, resolver stability spec-modelled): re-normalizing the
output of an accepted normalization is a no-op on the node's attributes: the
second pass accepts and writes the very same uri/host/scheme mapping, for work
and agent identifiers alike; with unique ids the graph itself is unchanged. -/
theorem normalize_idempotent (resolve : String → Option IRIResult)
    (node : IdNode) (gFst gSnd : Graph) (u : String) (ret : IRIResult)
    (hu : node.attrs.lookup "uri" = some u)
    (hres : resolve u = some ret)
    (hok : ¬(ret.authority = "issn" ∨ ret.authority = "orcid.org" ∨ ret.scheme = "mailto"))
    (hfix : resolve ret.IRI = some ret) :
    workIdentifierNormalize resolve node gFst
        = some (Graph.updateNode gFst { node with attrs := normalizedAttrs ret })
    ∧ workIdentifierNormalize resolve { node with attrs := normalizedAttrs ret } gSnd
        = some (Graph.updateNode gSnd { node with attrs := normalizedAttrs ret })
    ∧ agentIdentifierNormalize resolve { node with attrs := normalizedAttrs ret } gSnd
        = some (Graph.updateNode gSnd { node with attrs := normalizedAttrs ret })
    ∧ ((∀ m ∈ gSnd, m.id = node.id → m = { node with attrs := normalizedAttrs ret }) →
        Graph.updateNode gSnd { node with attrs := normalizedAttrs ret } = gSnd) := by
  have h1 : ret.authority ≠ "issn" := fun h => hok (Or.inl h)
  have h2 : ret.authority ≠ "orcid.org" := fun h => hok (Or.inr (Or.inl h))
  have h3 : ret.scheme ≠ "mailto" := fun h => hok (Or.inr (Or.inr h))
  refine ⟨?_, ?_, ?_, fun h => Graph.updateNode_eq_self gSnd _ h⟩
  · simp [workIdentifierNormalize, hu, hres, h1, h2, h3]
  · simp [workIdentifierNormalize, normalizedAttrs, List.lookup, hfix, h1, h2, h3]
  · simp [agentIdentifierNormalize, normalizedAttrs, List.lookup, hfix]

/-- C10 witness: a concrete canonical identifier is a fixed point of both
normalizations. -/
theorem normalize_idempotent_witness :
    workIdentifierNormalize (fun _ => some ⟨"http://example.com/foo", "example.com", "http"⟩)
        ⟨1, [("uri", "u0")]⟩ [⟨1, [("uri", "u0")]⟩]
      = some (Graph.updateNode [⟨1, [("uri", "u0")]⟩]
          ⟨1, normalizedAttrs ⟨"http://example.com/foo", "example.com", "http"⟩⟩)
    ∧ workIdentifierNormalize (fun _ => some ⟨"http://example.com/foo", "example.com", "http"⟩)
        ⟨1, normalizedAttrs ⟨"http://example.com/foo", "example.com", "http"⟩⟩
        [⟨1, normalizedAttrs ⟨"http://example.com/foo", "example.com", "http"⟩⟩]
      = some (Graph.updateNode [⟨1, normalizedAttrs ⟨"http://example.com/foo", "example.com", "http"⟩⟩]
          ⟨1, normalizedAttrs ⟨"http://example.com/foo", "example.com", "http"⟩⟩)
    ∧ agentIdentifierNormalize (fun _ => some ⟨"http://example.com/foo", "example.com", "http"⟩)
        ⟨1, normalizedAttrs ⟨"http://example.com/foo", "example.com", "http"⟩⟩
        [⟨1, normalizedAttrs ⟨"http://example.com/foo", "example.com", "http"⟩⟩]
      = some (Graph.updateNode [⟨1, normalizedAttrs ⟨"http://example.com/foo", "example.com", "http"⟩⟩]
          ⟨1, normalizedAttrs ⟨"http://example.com/foo", "example.com", "http"⟩⟩)
    ∧ ((∀ m ∈ [(⟨1, normalizedAttrs ⟨"http://example.com/foo", "example.com", "http"⟩⟩ : IdNode)],
          m.id = 1 → m = ⟨1, normalizedAttrs ⟨"http://example.com/foo", "example.com", "http"⟩⟩) →
        Graph.updateNode [⟨1, normalizedAttrs ⟨"http://example.com/foo", "example.com", "http"⟩⟩]
            ⟨1, normalizedAttrs ⟨"http://example.com/foo", "example.com", "http"⟩⟩
          = [⟨1, normalizedAttrs ⟨"http://example.com/foo", "example.com", "http"⟩⟩]) :=
  normalize_idempotent (fun _ => some ⟨"http://example.com/foo", "example.com", "http"⟩)
    ⟨1, [("uri", "u0")]⟩ [⟨1, [("uri", "u0")]⟩]
    [⟨1, normalizedAttrs ⟨"http://example.com/foo", "example.com", "http"⟩⟩] "u0"
    ⟨"http://example.com/foo", "example.com", "http"⟩ rfl rfl (by simp) rfl

/-- Membership in related_matches: exactly the pairs (r, matches of node[r])
for named relations r. -/
theorem relatedMatches_mem (ms : MatchSet) (relationNames : List String) (node : MNode)
    (p : String × List Nat) :
    p ∈ relatedMatches ms relationNames node
      ↔ ∃ r ∈ relationNames, p = (r, ms.getMatches (node.rel r)) := by
  simp only [relatedMatches, List.mem_map]
  constructor
  · rintro ⟨r, hr, rfl⟩; exact ⟨r, hr, rfl⟩
  · rintro ⟨r, hr, rfl⟩; exact ⟨r, hr, rfl⟩

/-- The per-node step raises iff some named relation has more than one match. -/
theorem manyToOneStep_error_iff (ms : MatchSet) (relationNames : List String) (node : MNode) :
    (∃ a, manyToOneStep ms relationNames node = Except.error a)
      ↔ ∃ r ∈ relationNames, 1 < (ms.getMatches (node.rel r)).length := by
  unfold manyToOneStep
  by_cases hall : (relatedMatches ms relationNames node).all (fun p => p.2.length == 1) = true
  · simp only [hall, if_true]
    constructor
    · rintro ⟨a, ha⟩; exact absurd ha (by simp)
    · rintro ⟨r, hr, hlen⟩
      have hmem : (r, ms.getMatches (node.rel r)) ∈ relatedMatches ms relationNames node :=
        (relatedMatches_mem ms relationNames node _).mpr ⟨r, hr, rfl⟩
      have := List.all_eq_true.mp hall _ hmem
      simp only [beq_iff_eq] at this
      omega
  · simp only [hall, if_false]
    cases hfind : (relatedMatches ms relationNames node).find? (fun p => 1 < p.2.length) with
    | none =>
      simp only [hfind]
      constructor
      · rintro ⟨a, ha⟩; exact absurd ha (by simp)
      · rintro ⟨r, hr, hlen⟩
        have hmem : (r, ms.getMatches (node.rel r)) ∈ relatedMatches ms relationNames node :=
          (relatedMatches_mem ms relationNames node _).mpr ⟨r, hr, rfl⟩
        have := List.find?_eq_none.mp hfind _ hmem
        simp at this
        omega
    | some p =>
      simp only [hfind]
      constructor
      · rintro ⟨a, _⟩
        have hp := List.find?_some hfind
        have hmem := List.mem_of_find?_eq_some hfind
        obtain ⟨r, hr, rfl⟩ := (relatedMatches_mem ms relationNames node p).mp hmem
        simp only [decide_eq_true_eq] at hp
        exact ⟨r, hr, hp⟩
      · intro _; exact ⟨⟨node.rel p.1, p.2⟩, rfl⟩

/-- The raised signal carries the conflicting candidates of an offending
relation. -/
theorem manyToOneStep_error_content (ms : MatchSet) (relationNames : List String)
    (node : MNode) (a : Ambiguity)
    (h : manyToOneStep ms relationNames node = Except.error a) :
    ∃ r ∈ relationNames, a.relatedNodeId = node.rel r
      ∧ a.candidates = ms.getMatches (node.rel r) ∧ 1 < a.candidates.length := by
  unfold manyToOneStep at h
  by_cases hall : (relatedMatches ms relationNames node).all (fun p => p.2.length == 1) = true
  · rw [if_pos hall] at h; exact absurd h (by simp)
  · rw [if_neg hall] at h
    cases hfind : (relatedMatches ms relationNames node).find? (fun p => 1 < p.2.length) with
    | none => rw [hfind] at h; exact absurd h (by simp)
    | some p =>
      rw [hfind] at h
      have hp := List.find?_some hfind
      have hmem := List.mem_of_find?_eq_some hfind
      obtain ⟨r, hr, rfl⟩ := (relatedMatches_mem ms relationNames node p).mp hmem
      simp only [decide_eq_true_eq] at hp
      have ha : a = ⟨node.rel r, ms.getMatches (node.rel r)⟩ := by
        cases h; rfl
      exact ⟨r, hr, by rw [ha], by rw [ha], by rw [ha]; exact hp⟩

/-- A node with a zero-match relation (and no over-matched relation) is
skipped: neither a lookup key nor a failure. -/
theorem manyToOneStep_excluded (ms : MatchSet) (relationNames : List String) (node : MNode)
    (hno : ¬∃ r ∈ relationNames, 1 < (ms.getMatches (node.rel r)).length)
    (hzero : ∃ r ∈ relationNames, (ms.getMatches (node.rel r)).length = 0) :
    manyToOneStep ms relationNames node = Except.ok none := by
  obtain ⟨r0, hr0, hlen0⟩ := hzero
  have hall : ¬((relatedMatches ms relationNames node).all (fun p => p.2.length == 1) = true) := by
    intro hall
    have hmem : (r0, ms.getMatches (node.rel r0)) ∈ relatedMatches ms relationNames node :=
      (relatedMatches_mem ms relationNames node _).mpr ⟨r0, hr0, rfl⟩
    have := List.all_eq_true.mp hall _ hmem
    simp only [beq_iff_eq] at this
    omega
  have hfind : (relatedMatches ms relationNames node).find? (fun p => 1 < p.2.length) = none := by
    rw [List.find?_eq_none]
    intro p hp
    obtain ⟨r, hr, rfl⟩ := (relatedMatches_mem ms relationNames node p).mp hp
    simp only [decide_eq_true_eq]
    intro hgt
    exact hno ⟨r, hr, hgt⟩
  unfold manyToOneStep
  rw [if_neg hall, hfind]

/-- node_values only holds nodes whose every relation had exactly one match. -/
theorem buildNodeValues_ok_mem (ms : MatchSet) (relationNames : List String) :
    ∀ (nodes : List MNode) (nv : List (Nat × List Nat)),
      buildNodeValues ms relationNames nodes = Except.ok nv →
      ∀ p ∈ nv, ∃ m ∈ nodes, p.1 = m.id
        ∧ ∃ vals, manyToOneStep ms relationNames m = Except.ok (some vals) ∧ p.2 = vals
  | [], nv, h, p, hp => by
    simp only [buildNodeValues] at h
    cases h
    exact absurd hp (by simp)
  | n :: rest, nv, h, p, hp => by
    simp only [buildNodeValues] at h
    cases hstep : manyToOneStep ms relationNames n with
    | error a => rw [hstep] at h; exact absurd h (by simp)
    | ok o =>
      cases o with
      | none =>
        rw [hstep] at h
        obtain ⟨m, hm, hrest⟩ := buildNodeValues_ok_mem ms relationNames rest nv h p hp
        exact ⟨m, List.mem_cons_of_mem n hm, hrest⟩
      | some vals =>
        rw [hstep] at h
        cases hrec : buildNodeValues ms relationNames rest with
        | error a => rw [hrec] at h; exact absurd h (by simp)
        | ok nvr =>
          rw [hrec] at h
          cases h
          rcases List.mem_cons.mp hp with hp1 | hp2
          · subst hp1
            exact ⟨n, List.mem_cons_self n rest, rfl, vals, hstep, rfl⟩
          · obtain ⟨m, hm, hrest⟩ := buildNodeValues_ok_mem ms relationNames rest nvr hrec p hp2
            exact ⟨m, List.mem_cons_of_mem n hm, hrest⟩

/-- Adding a match for another node leaves a node's matches unchanged. -/
theorem MatchSet.addMatch_getMatches_ne (ms : MatchSet) (n c k : Nat) (h : k ≠ n) :
    (ms.addMatch n c).getMatches k = ms.getMatches k := by
  unfold MatchSet.addMatch MatchSet.getMatches
  by_cases hmem : (n, c) ∈ ms.pairs
  · simp [hmem]
  · simp only [hmem, if_false, List.filter_append]
    have : (n == k) = false := beq_eq_false_iff_ne.mpr (Ne.symm h)
    simp [this]

/-- Folding add_match over rows for other nodes preserves a node's matches. -/
theorem foldl_addMatch_preserves (k : Nat) :
    ∀ (l : List (Nat × DBRow)) (ms : MatchSet), (∀ r ∈ l, r.1 ≠ k) →
      (l.foldl (fun acc r => acc.addMatch r.1 r.2.id) ms).getMatches k = ms.getMatches k
  | [], _, _ => rfl
  | r :: rest, ms, h => by
    simp only [List.foldl_cons]
    rw [foldl_addMatch_preserves k rest _ (fun x hx => h x (List.mem_cons_of_mem r hx))]
    exact MatchSet.addMatch_getMatches_ne ms r.1 r.2.id k
      (fun hk => h r (List.mem_cons_self r rest) hk.symm)

/-- Every row the batched query returns is tagged with a node id from the
VALUES rows. -/
theorem queryJoin_fst_mem (table : List DBRow) (allowed : Option (List String))
    (params : List (Nat × List Nat)) :
    ∀ q ∈ queryJoin table allowed params, q.1 ∈ params.map Prod.fst := by
  intro q hq
  simp only [queryJoin, List.mem_flatMap] at hq
  obtain ⟨p, hp, hq2⟩ := hq
  simp only [List.mem_map] at hq2
  obtain ⟨row, _, hrow⟩ := hq2
  simp only [List.mem_map]
  exact ⟨p, hp, by rw [← hrow]⟩

/-- _match_query never touches matches of nodes absent from its input. -/
theorem matchQueryStep_preserves (ms : MatchSet) (table : List DBRow)
    (allowed : Option (List String)) (nv : List (Nat × List Nat)) (k : Nat)
    (h : k ∉ nv.map Prod.fst) :
    (matchQueryStep ms table allowed nv).getMatches k = ms.getMatches k := by
  unfold matchQueryStep
  by_cases he : nv.isEmpty
  · simp [he]
  · simp only [he, if_false]
    apply foldl_addMatch_preserves
    intro r hr hrk
    exact h (hrk ▸ queryJoin_fst_mem table allowed nv r hr)

/-- C1 (confirmed): per node, match_by_many_to_one raises the ambiguity
signal iff some named relation's related node has more than one existing
match (the signal carrying those conflicting candidates); a node with only
zero-or-one-match relations and at least one zero is excluded: the pass
neither fails on it nor records a match for it. -/
theorem many_to_one_ambiguity_iff (ms : MatchSet) (table : List DBRow)
    (allowed : Option (List String)) (nodes : List MNode) (relationNames : List String)
    (node : MNode) (hnode : node ∈ nodes) (hids : (nodes.map MNode.id).Nodup) :
    ((∃ a, manyToOneStep ms relationNames node = Except.error a)
      ↔ ∃ r ∈ relationNames, 1 < (ms.getMatches (node.rel r)).length)
    ∧ (∀ a, manyToOneStep ms relationNames node = Except.error a →
        ∃ r ∈ relationNames, a.relatedNodeId = node.rel r
          ∧ a.candidates = ms.getMatches (node.rel r) ∧ 1 < a.candidates.length)
    ∧ ((¬∃ r ∈ relationNames, 1 < (ms.getMatches (node.rel r)).length) →
       (∃ r ∈ relationNames, (ms.getMatches (node.rel r)).length = 0) →
        manyToOneStep ms relationNames node = Except.ok none
        ∧ ∀ msOut, matchByManyToOne ms table allowed nodes relationNames = Except.ok msOut →
            msOut.getMatches node.id = ms.getMatches node.id) := by
  refine ⟨manyToOneStep_error_iff ms relationNames node,
    fun a ha => manyToOneStep_error_content ms relationNames node a ha, fun hno hzero => ?_⟩
  have hskip := manyToOneStep_excluded ms relationNames node hno hzero
  refine ⟨hskip, fun msOut hout => ?_⟩
  unfold matchByManyToOne at hout
  cases hb : buildNodeValues ms relationNames nodes with
  | error a => rw [hb] at hout; exact absurd hout (by simp)
  | ok nv =>
    rw [hb] at hout
    have hout2 : msOut = matchQueryStep ms table allowed nv := by
      cases hout; rfl
    subst hout2
    apply matchQueryStep_preserves
    intro hmem
    simp only [List.mem_map] at hmem
    obtain ⟨p, hp, hpid⟩ := hmem
    obtain ⟨m, hm, hmid, vals, hstep, _⟩ := buildNodeValues_ok_mem ms relationNames nodes nv hb p hp
    have hmn : m = node := List.inj_on_of_nodup_map hids hm hnode (by rw [← hmid, hpid])
    rw [hmn] at hstep
    rw [hskip] at hstep
    exact absurd hstep (by simp)

/-- C1 witness: a node whose only relation has zero matches is excluded and
causes no failure; the raise-iff equivalence holds vacuously on both sides. -/
theorem many_to_one_ambiguity_iff_witness :
    ((∃ a, manyToOneStep (MatchSet.mk []) ["agent"] (MNode.mk 5 (fun _ => 10)) = Except.error a)
      ↔ ∃ r ∈ ["agent"],
          1 < ((MatchSet.mk []).getMatches ((MNode.mk 5 (fun _ => 10)).rel r)).length)
    ∧ (∀ a, manyToOneStep (MatchSet.mk []) ["agent"] (MNode.mk 5 (fun _ => 10)) = Except.error a →
        ∃ r ∈ ["agent"], a.relatedNodeId = (MNode.mk 5 (fun _ => 10)).rel r
          ∧ a.candidates = (MatchSet.mk []).getMatches ((MNode.mk 5 (fun _ => 10)).rel r)
          ∧ 1 < a.candidates.length)
    ∧ ((¬∃ r ∈ ["agent"],
          1 < ((MatchSet.mk []).getMatches ((MNode.mk 5 (fun _ => 10)).rel r)).length) →
       (∃ r ∈ ["agent"],
          ((MatchSet.mk []).getMatches ((MNode.mk 5 (fun _ => 10)).rel r)).length = 0) →
        manyToOneStep (MatchSet.mk []) ["agent"] (MNode.mk 5 (fun _ => 10)) = Except.ok none
        ∧ ∀ msOut, matchByManyToOne (MatchSet.mk []) [] none [MNode.mk 5 (fun _ => 10)] ["agent"]
              = Except.ok msOut →
            msOut.getMatches 5 = (MatchSet.mk []).getMatches 5) :=
  many_to_one_ambiguity_iff (MatchSet.mk []) [] none [MNode.mk 5 (fun _ => 10)] ["agent"]
    (MNode.mk 5 (fun _ => 10)) (List.mem_singleton.mpr rfl) (by simp)

/-- C2 (confirmed): whenever match_by_many_to_one raises MergeRequired, the
Match Set is exactly as it was on entry: the raise happens inside the
node_values loop, before the single batched lookup that is the only place
the pass records matches. -/
theorem many_to_one_atomic (ms : MatchSet) (table : List DBRow) (allowed : Option (List String))
    (nodes : List MNode) (relationNames : List String) (a : Ambiguity) (msAtRaise : MatchSet)
    (h : matchByManyToOne ms table allowed nodes relationNames = Except.error (a, msAtRaise)) :
    msAtRaise = ms := by
  unfold matchByManyToOne at h
  cases hb : buildNodeValues ms relationNames nodes with
  | error e =>
    rw [hb] at h
    simp only [Except.error.injEq, Prod.mk.injEq] at h
    exact h.2.symm
  | ok nv => rw [hb] at h; exact absurd h (by simp)

/-- C2 witness: a concrete ambiguous input (a related node with two existing
matches, alongside an unambiguous sibling node) raises and leaves the match
set untouched. -/
theorem many_to_one_atomic_witness :
    matchByManyToOne (MatchSet.mk [(10, 1), (10, 2), (11, 3)]) [] none
        [MNode.mk 4 (fun _ => 11), MNode.mk 5 (fun _ => 10)] ["agent"]
      = Except.error (Ambiguity.mk 10 [1, 2], MatchSet.mk [(10, 1), (10, 2), (11, 3)])
    ∧ MatchSet.mk [(10, 1), (10, 2), (11, 3)] = MatchSet.mk [(10, 1), (10, 2), (11, 3)] :=
  ⟨rfl, many_to_one_atomic (MatchSet.mk [(10, 1), (10, 2), (11, 3)]) [] none
    [MNode.mk 4 (fun _ => 11), MNode.mk 5 (fun _ => 10)] ["agent"]
    (Ambiguity.mk 10 [1, 2]) (MatchSet.mk [(10, 1), (10, 2), (11, 3)]) rfl⟩

/-- insertDescending introduces no new elements. -/
theorem mem_insertDescending (x y : ComparableAgentWorkRelation) :
    ∀ l : List ComparableAgentWorkRelation, y ∈ insertDescending x l → y = x ∨ y ∈ l := by
  intro l
  induction l with
  | nil =>
    intro h
    simp only [insertDescending] at h
    exact Or.inl (List.mem_singleton.mp h)
  | cons z zs ih =>
    intro h
    simp only [insertDescending] at h
    by_cases hb : boolKeyLt z.sort_key x.sort_key
    · rw [if_pos hb] at h
      rcases List.mem_cons.mp h with h1 | h2
      · exact Or.inl h1
      · exact Or.inr h2
    · rw [if_neg hb] at h
      rcases List.mem_cons.mp h with h1 | h2
      · exact Or.inr (h1 ▸ List.mem_cons_self z zs)
      · rcases ih h2 with h3 | h4
        · exact Or.inl h3
        · exact Or.inr (List.mem_cons_of_mem z h4)

/-- The stable descending sort permutes its input (membership direction used
by the validity gate). -/
theorem mem_sortedDescending_foldl (y : ComparableAgentWorkRelation) :
    ∀ (l acc : List ComparableAgentWorkRelation),
      y ∈ l.foldl (fun acc x => insertDescending x acc) acc → y ∈ acc ∨ y ∈ l := by
  intro l
  induction l with
  | nil => intro acc h; exact Or.inl h
  | cons z zs ih =>
    intro acc h
    simp only [List.foldl_cons] at h
    rcases ih (insertDescending z acc) h with h1 | h2
    · rcases mem_insertDescending z y acc h1 with h3 | h4
      · exact Or.inr (h3 ▸ List.mem_cons_self z zs)
      · exact Or.inl h4
    · exact Or.inr (List.mem_cons_of_mem z h2)

/-- Everything in top_matches passed the valid_match filter. -/
theorem valid_of_mem_topMatches (node_names : ParsedRelationNames RelNode)
    (rels : List (ParsedRelationNames RelationRecord)) (m : ComparableAgentWorkRelation)
    (h : m ∈ topMatches node_names rels) : m.valid_match = true := by
  unfold topMatches sortedDescending at h
  rcases mem_sortedDescending_foldl m _ [] h with h1 | h2
  · exact absurd h1 (by simp)
  · exact List.of_mem_filter h2

/-- C4 (confirmed): the selected candidate of the fuzzy pass always has a
valid (not all-false) cited-as name key; when every candidate's cited-as
key is all false - in particular a sole candidate - nothing is selected
and the match set is unchanged for that node. -/
theorem fuzzy_validity_gate (parse : String → ParsedName) (ms : MatchSet)
    (rels : List (ParsedRelationNames RelationRecord)) (node : RelNode) :
    (∀ m rest, topMatches (parsedNodeNames parse node) rels = m :: rest →
        m.valid_match = true)
    ∧ ((∀ r ∈ rels, (mkComparable (parsedNodeNames parse node) r).valid_match = false) →
        processRelationNode parse ms rels node = ms) := by
  constructor
  · intro m rest htop
    exact valid_of_mem_topMatches _ rels m (htop ▸ List.mem_cons_self m rest)
  · intro hall
    have hfilter : ((rels.map (fun r => mkComparable (parsedNodeNames parse node) r)).filter
        (fun c => c.valid_match)) = [] := by
      rw [List.filter_eq_nil_iff]
      intro c hc
      obtain ⟨r, hr, rfl⟩ := List.mem_map.mp hc
      simp [hall r hr]
    unfold processRelationNode
    by_cases hg : MAX_NAME_LENGTH < node.cited_as.length ∨ MAX_NAME_LENGTH < node.agent_name.length
    · rw [if_pos hg]
    · rw [if_neg hg]
      unfold topMatches
      rw [hfilter]
      rfl

/-- C4 witness: one candidate, all three cited-as components false; no match
is recorded. -/
theorem fuzzy_validity_gate_witness :
    (∀ m rest, topMatches
          (parsedNodeNames (fun s => ParsedName.mk s "" s) (RelNode.mk 1 2 (some 0) "creator" "ann" "x"))
          [ParsedRelationNames.mk (RelationRecord.mk 100 200 (some 0) "creator" "bob" "y")
            (ParsedName.mk "bob" "" "bob") (ParsedName.mk "y" "" "y")] = m :: rest →
        m.valid_match = true)
    ∧ ((∀ r ∈ [ParsedRelationNames.mk (RelationRecord.mk 100 200 (some 0) "creator" "bob" "y")
          (ParsedName.mk "bob" "" "bob") (ParsedName.mk "y" "" "y")],
          (mkComparable (parsedNodeNames (fun s => ParsedName.mk s "" s)
            (RelNode.mk 1 2 (some 0) "creator" "ann" "x")) r).valid_match = false) →
        processRelationNode (fun s => ParsedName.mk s "" s) (MatchSet.mk [])
          [ParsedRelationNames.mk (RelationRecord.mk 100 200 (some 0) "creator" "bob" "y")
            (ParsedName.mk "bob" "" "bob") (ParsedName.mk "y" "" "y")]
          (RelNode.mk 1 2 (some 0) "creator" "ann" "x") = MatchSet.mk []) :=
  fuzzy_validity_gate (fun s => ParsedName.mk s "" s) (MatchSet.mk [])
    [ParsedRelationNames.mk (RelationRecord.mk 100 200 (some 0) "creator" "bob" "y")
      (ParsedName.mk "bob" "" "bob") (ParsedName.mk "y" "" "y")]
    (RelNode.mk 1 2 (some 0) "creator" "ann" "x")

/-- The sort key starts with the three cited-as name-key components. -/
theorem mkComparable_sort_key_shape (nn : ParsedRelationNames RelNode)
    (r : ParsedRelationNames RelationRecord) :
    ∃ t, (mkComparable nn r).sort_key
      = (mkComparable nn r).name_key.1 :: (mkComparable nn r).name_key.2.1
          :: (mkComparable nn r).name_key.2.2 :: t :=
  ⟨_, rfl⟩

/-- A key starting true is never lexicographically below one starting false. -/
theorem boolKeyLt_true_false (t1 t2 : List Bool) :
    boolKeyLt (true :: t1) (false :: t2) = false := rfl

/-- A key starting false is lexicographically below one starting true. -/
theorem boolKeyLt_false_true (t1 t2 : List Bool) :
    boolKeyLt (false :: t1) (true :: t2) = true := rfl

/-- C5 (confirmed): between a valid candidate matching on full name
(component 0 true) and a valid candidate matching only on
first-initial+last (components 0 and 1 false, component 2 true), the
descending sort puts the full-name candidate first - in either input
order, whatever the agent-name components and boolean tie-breakers - and
the pass selects it, recording its agent and relation. -/
theorem fuzzy_ranking_full_name_first (parse : String → ParsedName) (ms : MatchSet)
    (node : RelNode) (a b : ParsedRelationNames RelationRecord)
    (hlen1 : node.cited_as.length ≤ MAX_NAME_LENGTH)
    (hlen2 : node.agent_name.length ≤ MAX_NAME_LENGTH)
    (ha : (mkComparable (parsedNodeNames parse node) a).name_key.1 = true)
    (hb1 : (mkComparable (parsedNodeNames parse node) b).name_key.1 = false)
    (hb2 : (mkComparable (parsedNodeNames parse node) b).name_key.2.1 = false)
    (hb3 : (mkComparable (parsedNodeNames parse node) b).name_key.2.2 = true) :
    (topMatches (parsedNodeNames parse node) [a, b]
        = [mkComparable (parsedNodeNames parse node) a,
           mkComparable (parsedNodeNames parse node) b]
      ∧ topMatches (parsedNodeNames parse node) [b, a]
        = [mkComparable (parsedNodeNames parse node) a,
           mkComparable (parsedNodeNames parse node) b])
    ∧ (processRelationNode parse ms [a, b] node
        = (ms.addMatch node.agentNodeId
            (mkComparable (parsedNodeNames parse node) a).relation.agentId).addMatch
            node.id (mkComparable (parsedNodeNames parse node) a).relation.relId
      ∧ processRelationNode parse ms [b, a] node
        = (ms.addMatch node.agentNodeId
            (mkComparable (parsedNodeNames parse node) a).relation.agentId).addMatch
            node.id (mkComparable (parsedNodeNames parse node) a).relation.relId) := by
  set nn := parsedNodeNames parse node with hnn
  set ca := mkComparable nn a with hca
  set cb := mkComparable nn b with hcb
  have hva : ca.valid_match = true := by
    simp [ComparableAgentWorkRelation.valid_match, ha]
  have hvb : cb.valid_match = true := by
    simp [ComparableAgentWorkRelation.valid_match, hb3]
  obtain ⟨ta, hta⟩ := mkComparable_sort_key_shape nn a
  obtain ⟨tb, htb⟩ := mkComparable_sort_key_shape nn b
  rw [← hca, ha] at hta
  rw [← hcb, hb1, hb2, hb3] at htb
  have hlt1 : boolKeyLt ca.sort_key cb.sort_key = false := by
    rw [hta, htb]; exact boolKeyLt_true_false _ _
  have hlt2 : boolKeyLt cb.sort_key ca.sort_key = true := by
    rw [hta, htb]; exact boolKeyLt_false_true _ _
  have hfilter1 : (([a, b].map (fun r => mkComparable nn r)).filter
      (fun c => c.valid_match)) = [ca, cb] := by
    simp only [List.map_cons, List.map_nil, ← hca, ← hcb]
    simp [List.filter, hva, hvb]
  have hfilter2 : (([b, a].map (fun r => mkComparable nn r)).filter
      (fun c => c.valid_match)) = [cb, ca] := by
    simp only [List.map_cons, List.map_nil, ← hca, ← hcb]
    simp [List.filter, hva, hvb]
  have hsort1 : sortedDescending [ca, cb] = [ca, cb] := by
    unfold sortedDescending
    simp only [List.foldl_cons, List.foldl_nil]
    rw [show insertDescending ca [] = [ca] from rfl]
    unfold insertDescending
    rw [hlt1]
    simp [insertDescending]
  have hsort2 : sortedDescending [cb, ca] = [ca, cb] := by
    unfold sortedDescending
    simp only [List.foldl_cons, List.foldl_nil]
    rw [show insertDescending cb [] = [cb] from rfl]
    unfold insertDescending
    rw [hlt2]
    simp
  have htop1 : topMatches nn [a, b] = [ca, cb] := by
    unfold topMatches
    rw [hfilter1, hsort1]
  have htop2 : topMatches nn [b, a] = [ca, cb] := by
    unfold topMatches
    rw [hfilter2, hsort2]
  have hg : ¬(MAX_NAME_LENGTH < node.cited_as.length
      ∨ MAX_NAME_LENGTH < node.agent_name.length) := by
    rintro (h | h) <;> omega
  refine ⟨⟨htop1, htop2⟩, ?_, ?_⟩
  · unfold processRelationNode
    rw [if_neg hg, ← hnn, htop1]
  · unfold processRelationNode
    rw [if_neg hg, ← hnn, htop2]

/-- C5 witness: "john" (full-name match) beats "jane" (initial+last match)
in both candidate orders. -/
theorem fuzzy_ranking_full_name_first_witness :
    (topMatches (parsedNodeNames (fun s => ParsedName.mk s "" s)
          (RelNode.mk 1 2 (some 0) "creator" "john" "x"))
        [ParsedRelationNames.mk (RelationRecord.mk 100 200 (some 0) "creator" "john" "x")
            (ParsedName.mk "john" "" "john") (ParsedName.mk "x" "" "x"),
         ParsedRelationNames.mk (RelationRecord.mk 101 201 (some 0) "creator" "jane" "x")
            (ParsedName.mk "jane" "" "jane") (ParsedName.mk "x" "" "x")]
        = [mkComparable (parsedNodeNames (fun s => ParsedName.mk s "" s)
              (RelNode.mk 1 2 (some 0) "creator" "john" "x"))
            (ParsedRelationNames.mk (RelationRecord.mk 100 200 (some 0) "creator" "john" "x")
              (ParsedName.mk "john" "" "john") (ParsedName.mk "x" "" "x")),
           mkComparable (parsedNodeNames (fun s => ParsedName.mk s "" s)
              (RelNode.mk 1 2 (some 0) "creator" "john" "x"))
            (ParsedRelationNames.mk (RelationRecord.mk 101 201 (some 0) "creator" "jane" "x")
              (ParsedName.mk "jane" "" "jane") (ParsedName.mk "x" "" "x"))]
      ∧ topMatches (parsedNodeNames (fun s => ParsedName.mk s "" s)
          (RelNode.mk 1 2 (some 0) "creator" "john" "x"))
        [ParsedRelationNames.mk (RelationRecord.mk 101 201 (some 0) "creator" "jane" "x")
            (ParsedName.mk "jane" "" "jane") (ParsedName.mk "x" "" "x"),
         ParsedRelationNames.mk (RelationRecord.mk 100 200 (some 0) "creator" "john" "x")
            (ParsedName.mk "john" "" "john") (ParsedName.mk "x" "" "x")]
        = [mkComparable (parsedNodeNames (fun s => ParsedName.mk s "" s)
              (RelNode.mk 1 2 (some 0) "creator" "john" "x"))
            (ParsedRelationNames.mk (RelationRecord.mk 100 200 (some 0) "creator" "john" "x")
              (ParsedName.mk "john" "" "john") (ParsedName.mk "x" "" "x")),
           mkComparable (parsedNodeNames (fun s => ParsedName.mk s "" s)
              (RelNode.mk 1 2 (some 0) "creator" "john" "x"))
            (ParsedRelationNames.mk (RelationRecord.mk 101 201 (some 0) "creator" "jane" "x")
              (ParsedName.mk "jane" "" "jane") (ParsedName.mk "x" "" "x"))])
    ∧ (processRelationNode (fun s => ParsedName.mk s "" s) (MatchSet.mk [])
        [ParsedRelationNames.mk (RelationRecord.mk 100 200 (some 0) "creator" "john" "x")
            (ParsedName.mk "john" "" "john") (ParsedName.mk "x" "" "x"),
         ParsedRelationNames.mk (RelationRecord.mk 101 201 (some 0) "creator" "jane" "x")
            (ParsedName.mk "jane" "" "jane") (ParsedName.mk "x" "" "x")]
        (RelNode.mk 1 2 (some 0) "creator" "john" "x")
        = ((MatchSet.mk []).addMatch 2
            (mkComparable (parsedNodeNames (fun s => ParsedName.mk s "" s)
              (RelNode.mk 1 2 (some 0) "creator" "john" "x"))
            (ParsedRelationNames.mk (RelationRecord.mk 100 200 (some 0) "creator" "john" "x")
              (ParsedName.mk "john" "" "john") (ParsedName.mk "x" "" "x"))).relation.agentId).addMatch
            1 (mkComparable (parsedNodeNames (fun s => ParsedName.mk s "" s)
              (RelNode.mk 1 2 (some 0) "creator" "john" "x"))
            (ParsedRelationNames.mk (RelationRecord.mk 100 200 (some 0) "creator" "john" "x")
              (ParsedName.mk "john" "" "john") (ParsedName.mk "x" "" "x"))).relation.relId
      ∧ processRelationNode (fun s => ParsedName.mk s "" s) (MatchSet.mk [])
        [ParsedRelationNames.mk (RelationRecord.mk 101 201 (some 0) "creator" "jane" "x")
            (ParsedName.mk "jane" "" "jane") (ParsedName.mk "x" "" "x"),
         ParsedRelationNames.mk (RelationRecord.mk 100 200 (some 0) "creator" "john" "x")
            (ParsedName.mk "john" "" "john") (ParsedName.mk "x" "" "x")]
        (RelNode.mk 1 2 (some 0) "creator" "john" "x")
        = ((MatchSet.mk []).addMatch 2
            (mkComparable (parsedNodeNames (fun s => ParsedName.mk s "" s)
              (RelNode.mk 1 2 (some 0) "creator" "john" "x"))
            (ParsedRelationNames.mk (RelationRecord.mk 100 200 (some 0) "creator" "john" "x")
              (ParsedName.mk "john" "" "john") (ParsedName.mk "x" "" "x"))).relation.agentId).addMatch
            1 (mkComparable (parsedNodeNames (fun s => ParsedName.mk s "" s)
              (RelNode.mk 1 2 (some 0) "creator" "john" "x"))
            (ParsedRelationNames.mk (RelationRecord.mk 100 200 (some 0) "creator" "john" "x")
              (ParsedName.mk "john" "" "john") (ParsedName.mk "x" "" "x"))).relation.relId) :=
  fuzzy_ranking_full_name_first (fun s => ParsedName.mk s "" s) (MatchSet.mk [])
    (RelNode.mk 1 2 (some 0) "creator" "john" "x")
    (ParsedRelationNames.mk (RelationRecord.mk 100 200 (some 0) "creator" "john" "x")
      (ParsedName.mk "john" "" "john") (ParsedName.mk "x" "" "x"))
    (ParsedRelationNames.mk (RelationRecord.mk 101 201 (some 0) "creator" "jane" "x")
      (ParsedName.mk "jane" "" "jane") (ParsedName.mk "x" "" "x"))
    (by decide) (by decide) (by decide) (by decide) (by decide) (by decide)

/-- C8 (confirmed): match_subjects searches central-taxonomy rows when the
node's central-synonym reference is absent, the configured source's taxonomy
rows otherwise, and skips the node when no source is configured; within the
chosen scope it records a unique uri hit, falls back to name only when the
uri value is falsy or finds no row, and records nothing when neither field
matches. -/
theorem match_subjects_scope_and_order (source : Option String) (rows : List Subject)
    (node : SubjNode) :
    (node.central_synonym = none →
        matchSubjectsNode source rows node
          = matchFieldsLoop (rows.filter (fun s => s.central_synonym.isNone)) node
              [SubjField.uri, SubjField.name])
    ∧ (∀ src, node.central_synonym ≠ none → source = some src →
        matchSubjectsNode source rows node
          = matchFieldsLoop (rows.filter (fun s => s.taxonomy_source == some src)) node
              [SubjField.uri, SubjField.name])
    ∧ (node.central_synonym ≠ none → source = none →
        matchSubjectsNode source rows node = SubjectOutcome.skipped)
    ∧ ∀ qs : List Subject,
        (∀ s, truthy (node.field SubjField.uri) = true →
            qsGet qs (fun t => t.field SubjField.uri == node.field SubjField.uri)
              = GetResult.found s →
            matchFieldsLoop qs node [SubjField.uri, SubjField.name]
              = SubjectOutcome.matched s)
        ∧ ((truthy (node.field SubjField.uri) = false
              ∨ qsGet qs (fun t => t.field SubjField.uri == node.field SubjField.uri)
                  = GetResult.doesNotExist) →
            matchFieldsLoop qs node [SubjField.uri, SubjField.name]
              = matchFieldsLoop qs node [SubjField.name])
        ∧ (∀ s, truthy (node.field SubjField.name) = true →
            qsGet qs (fun t => t.field SubjField.name == node.field SubjField.name)
              = GetResult.found s →
            matchFieldsLoop qs node [SubjField.name] = SubjectOutcome.matched s)
        ∧ ((truthy (node.field SubjField.name) = false
              ∨ qsGet qs (fun t => t.field SubjField.name == node.field SubjField.name)
                  = GetResult.doesNotExist) →
            matchFieldsLoop qs node [SubjField.name] = SubjectOutcome.noMatch) := by
  refine ⟨?_, ?_, ?_, ?_⟩
  · intro h
    unfold matchSubjectsNode
    rw [h]
  · intro src h hs
    cases hc : node.central_synonym with
    | none => exact absurd hc h
    | some v =>
      unfold matchSubjectsNode
      rw [hc, hs]
  · intro h hs
    cases hc : node.central_synonym with
    | none => exact absurd hc h
    | some v =>
      unfold matchSubjectsNode
      rw [hc, hs]
  · intro qs
    refine ⟨?_, ?_, ?_, ?_⟩
    · intro s ht hg
      unfold matchFieldsLoop
      rw [if_pos ht, hg]
    · rintro (ht | hg)
      · unfold matchFieldsLoop
        rw [if_neg (by rw [ht]; exact Bool.false_ne_true)]
        rfl
      · by_cases ht : truthy (node.field SubjField.uri) = true
        · unfold matchFieldsLoop
          rw [if_pos ht, hg]
          rfl
        · unfold matchFieldsLoop
          rw [if_neg ht]
          rfl
    · intro s ht hg
      unfold matchFieldsLoop
      rw [if_pos ht, hg]
    · rintro (ht | hg)
      · unfold matchFieldsLoop
        rw [if_neg (by rw [ht]; exact Bool.false_ne_true)]
        rfl
      · by_cases ht : truthy (node.field SubjField.name) = true
        · unfold matchFieldsLoop
          rw [if_pos ht, hg]
          rfl
        · unfold matchFieldsLoop
          rw [if_neg ht]
          rfl

/-- C8 witness: a central node whose uri uniquely hits a central row is
matched to that row through the central scope. -/
theorem match_subjects_scope_and_order_witness :
    matchSubjectsNode none [Subject.mk 1 none none (some "http://s") (some "Biology")]
        (SubjNode.mk 7 none (some "http://s") (some "Biology"))
      = matchFieldsLoop
          (([Subject.mk 1 none none (some "http://s") (some "Biology")]).filter
            (fun s => s.central_synonym.isNone))
          (SubjNode.mk 7 none (some "http://s") (some "Biology"))
          [SubjField.uri, SubjField.name]
    ∧ matchFieldsLoop [Subject.mk 1 none none (some "http://s") (some "Biology")]
        (SubjNode.mk 7 none (some "http://s") (some "Biology"))
        [SubjField.uri, SubjField.name]
      = SubjectOutcome.matched (Subject.mk 1 none none (some "http://s") (some "Biology")) :=
  ⟨(match_subjects_scope_and_order none
      [Subject.mk 1 none none (some "http://s") (some "Biology")]
      (SubjNode.mk 7 none (some "http://s") (some "Biology"))).1 rfl,
   ((match_subjects_scope_and_order none
      [Subject.mk 1 none none (some "http://s") (some "Biology")]
      (SubjNode.mk 7 none (some "http://s") (some "Biology"))).2.2.2
      [Subject.mk 1 none none (some "http://s") (some "Biology")]).1
      (Subject.mk 1 none none (some "http://s") (some "Biology")) (by decide) (by decide)⟩

/-- C9 (confirmed): the constrained builder is a pure extension of the
unconstrained one: the same template with the base join conditions plus
exactly one IN predicate on the type column, and the base parameter list
plus exactly one value, the tuple of app_label.model_name tags; both build
one query with one value-row placeholder per node. -/
theorem constrained_builder_pure_extension {N V : Type} (qb : QueryBuilderCfg)
    (idOf : N → Nat) (get_values : N → List V) (allowed_models : List ModelMeta)
    (nodes : List N) :
    (qbBuild qb idOf get_values nodes).1
        = queryTemplate qb.table_name (String.intercalate ", " qb.column_names)
            (String.intercalate " AND " (qbJoinConditions qb))
            (String.intercalate ", " (List.replicate nodes.length "%s"))
    ∧ (ctqbBuild qb idOf get_values allowed_models nodes).1
        = queryTemplate qb.table_name (String.intercalate ", " qb.column_names)
            (String.intercalate " AND "
              (qbJoinConditions qb ++ [qb.table_name ++ "." ++ TYPE_COLUMN ++ " IN %s"]))
            (String.intercalate ", " (List.replicate nodes.length "%s"))
    ∧ (ctqbBuild qb idOf get_values allowed_models nodes).2
        = (qbBuild qb idOf get_values nodes).2
            ++ [SQLParam.tags (allowed_models.map (fun m => m.app_label ++ "." ++ m.model_name))]
    ∧ (qbBuild qb idOf get_values nodes).2.length = nodes.length
    ∧ (ctqbBuild qb idOf get_values allowed_models nodes).2.length = nodes.length + 1 := by
  have hph : nodes.map (fun _ => "%s") = List.replicate nodes.length "%s" := by
    induction nodes with
    | nil => rfl
    | cons n ns ih => simp [List.replicate, ih]
  refine ⟨?_, ?_, rfl, ?_, ?_⟩
  · unfold qbBuild
    rw [hph]
  · unfold ctqbBuild ctqbJoinConditions
    rw [hph]
  · simp [qbBuild, qbParams]
  · simp [ctqbBuild, ctqbParams, qbParams]
